import Mathlib

/-!
Verification of the gateway's discovery-and-routing subsystem of the
`mcp_things1` repository, shallowly embedded from
`src/mcp-server/app/mcp_server/server.py`, together with the sandboxed
code-execution endpoint embedded from `src/sandbox/app/main.py`.

HTTP traffic is modelled by "world" functions that assign to each outbound
request (keyed by URL, and for POSTs also the posted JSON body) the response
the network would deliver: a status code plus a body, or a raised exception
(timeouts and connection errors are exceptions in the Python client, so they
are all represented by the `exn` constructors).  The Python functions are then
translated into pure Lean functions of these worlds, mirroring the source's
control flow branch by branch.
-/

namespace McpThings

/-- A small model of JSON values (what `response.json()` can produce and what
`client.post(..., json=...)` can send). -/
inductive Json where
  | null : Json
  | bool (b : Bool) : Json
  | num (n : Int) : Json
  | str (s : String) : Json
  | arr (xs : List Json) : Json
  | obj (fields : List (String × Json)) : Json

/-- Python's `needle in haystack` substring containment, on lists of
characters: does the needle occur as a prefix of the haystack? -/
def charsHavePre : List Char → List Char → Bool
  | [], _ => true
  | _ :: _, [] => false
  | n :: ns, h :: hs => n == h && charsHavePre ns hs

/-- Does the needle occur as a contiguous run anywhere in the haystack? -/
def charsHaveSub (ns : List Char) : List Char → Bool
  | [] => ns.isEmpty
  | h :: hs => charsHavePre ns (h :: hs) || charsHaveSub ns hs

/-- Python's `needle in haystack` test on strings (substring containment). -/
def strIn (needle hay : String) : Bool :=
  charsHaveSub needle.toList hay.toList

/-- Python's `text.strip(chr)` for a single character: remove every leading
and trailing occurrence of that character.  `server.py` line 163 uses
`response.text.strip(q)` with `q` the double-quote character to unwrap the raw
JSON string returned by the time backend. -/
def pyStrip (c : Char) (s : String) : String :=
  let cs := s.toList.dropWhile (fun x => x == c)
  String.mk ((cs.reverse.dropWhile (fun x => x == c)).reverse)

/-! ## The tool registry, modelled as a Python dict

`tool_registry` is a Python dict from tool name to service name.  We model it
as an association list with dict semantics: assignment replaces the value of
an existing key in place and otherwise appends the new key at the end
(insertion order), and lookup returns the value at the first matching key. -/

/-- The registry representation: an association list of
(tool name, service name) pairs, keys unique by construction. -/
def RegMap : Type := List (String × String)

instance : DecidableEq RegMap := by
  unfold RegMap
  infer_instance

/-- Dict lookup: `d[k]` / `k in d`. -/
def regLookup : RegMap → String → Option String
  | [], _ => none
  | (k', v) :: rest, k => if k' = k then some v else regLookup rest k

/-- Dict assignment `d[k] = v`: replace in place if the key is present,
otherwise append at the end. -/
def regInsert : RegMap → String → String → RegMap
  | [], k, v => [(k, v)]
  | (k', v') :: rest, k, v =>
    if k' = k then (k, v) :: rest else (k', v') :: regInsert rest k v

/-- Dict key listing `list(d.keys())` (insertion order). -/
def regKeys (reg : RegMap) : List String := reg.map (fun p => p.1)

theorem regLookup_regInsert (reg : RegMap) (k v k' : String) :
    regLookup (regInsert reg k v) k' =
      if k = k' then some v else regLookup reg k' := by
  induction reg with
  | nil =>
    by_cases hkk : k = k' <;> simp [regInsert, regLookup, hkk]
  | cons p rest ih =>
    obtain ⟨a, b⟩ := p
    unfold regInsert
    by_cases hak : a = k
    · subst hak
      by_cases hkk : a = k' <;> simp [regLookup, hkk]
    · rw [if_neg hak]
      unfold regLookup
      by_cases hak' : a = k'
      · subst hak'
        have hkk : ¬ k = a := fun hh => hak hh.symm
        simp [hkk]
      · simp [hak', ih]

/-! ## Discovery (`discover_service_tools`, server.py lines 47-89)

A "list tools" probe response body is classified by the shape the code
dispatches on: `isinstance(tools, list)`, or
`isinstance(tools, dict) and 'tools' in tools`; every other JSON shape falls
through the loop exactly like a non-200 status.  A body of `none` stands for
a 200 response whose `response.json()` call raises (invalid JSON), which the
inner `except` clause turns into `continue`. -/

/-- Shape of a parsed "list tools" response body, quotiented to what the code
inspects: a JSON array of names, a JSON object with a `tools` member, or any
other shape. -/
inductive ToolsJson where
  | list (names : List String) : ToolsJson
  | objWithTools (names : List String) : ToolsJson
  | otherShape : ToolsJson

/-- Result of one discovery GET: a response (status plus optional parsed
body), or a raised exception (timeout / connection error). -/
inductive DiscProbe where
  | resp (status : Nat) (body : Option ToolsJson) : DiscProbe
  | exn : DiscProbe

/-- The names a single probe response yields, if any: the code requires
status 200, a body that parses, and one of the two recognized shapes. -/
def discProbeNames : DiscProbe → Option (List String)
  | .resp status (some b) =>
    if status = 200 then
      match b with
      | .list ns => some ns
      | .objWithTools ns => some ns
      | .otherShape => none
    else none
  | .resp _ none => none
  | .exn => none

/-- The ordered candidate "list tools" endpoints (server.py lines 52-56). -/
def discoveryEndpoints (service_url : String) : List String :=
  [service_url ++ "/tools", service_url ++ "/mcp/tools", service_url ++ "/api/tools"]

/-- The `for endpoint in endpoints_to_try` loop: first probe that yields
names wins; every failure (`except`/non-200/unrecognized shape) continues. -/
def firstDiscovered (probe : String → DiscProbe) : List String → Option (List String)
  | [] => none
  | e :: rest =>
    match discProbeNames (probe e) with
    | some ns => some ns
    | none => firstDiscovered probe rest

/-- The static fallback tool lists (server.py lines 77-85), keyed by
substring tests on the service name, with `[]` for unrecognized services. -/
def fallbackTools (service_name : String) : List String :=
  if strIn "time-client" service_name then ["get_current_time"]
  else if strIn "code-executor" service_name then ["execute_python"]
  else []

/-- `discover_service_tools(service_name, service_url)` (server.py lines
47-89).  The outer `try` catches every exception and returns `[]`; since the
loop already catches its own exceptions and the fallback cannot raise, the
function is total. -/
def discover_service_tools (probe : String → DiscProbe)
    (service_name service_url : String) : List String :=
  match firstDiscovered probe (discoveryEndpoints service_url) with
  | some ns => ns
  | none => fallbackTools service_name

/-! ## Registry refresh (`refresh_tool_registry`, server.py lines 91-122) -/

/-- Result of the health GET in the refresh loop: a status code, or a raised
exception (timeout / connection error), which the per-service `except`
catches. -/
inductive HealthResult where
  | status (code : Nat) : HealthResult
  | exn : HealthResult

/-- What the network does for one backend service: the health-check outcome
and the discovery probe responses (keyed by full endpoint URL). -/
structure ServiceWorld where
  health : HealthResult
  probe : String → DiscProbe

/-- A refresh-time network world, keyed by service name. -/
def World : Type := String → ServiceWorld

/-- The body of one iteration of the refresh loop up to registration
(server.py lines 99-108): `.error` means an exception reached the
per-service `except` clause (the health GET raised); a non-200 health status
is the logged `continue` and contributes no tools; a healthy service
contributes its discovered tools. -/
def refreshServiceBody (w : World) (service_name service_url : String) :
    Except Unit (List String) :=
  match (w service_name).health with
  | .exn => .error ()
  | .status c =>
    if c = 200 then
      .ok (discover_service_tools (w service_name).probe service_name service_url)
    else
      .ok []

/-- One iteration of the refresh loop including registration (server.py
lines 98-120): an exception is caught and logged, leaving the registry as it
was; otherwise each discovered tool is assigned to this service. -/
def refreshService (w : World) (reg : RegMap) (service_name service_url : String) :
    RegMap :=
  match refreshServiceBody w service_name service_url with
  | .error _ => reg
  | .ok tools => tools.foldl (fun r t => regInsert r t service_name) reg

/-- `refresh_tool_registry()` (server.py lines 91-122): clear the registry
(the previous contents `old` are discarded entirely), then process every
catalog service in order. -/
def refresh_tool_registry (old : RegMap) (w : World)
    (catalog : List (String × String)) : RegMap :=
  let _ := old
  catalog.foldl (fun reg sp => refreshService w reg sp.1 sp.2) ([] : RegMap)

/-- The tools a service contributes during a given refresh pass. -/
def contributes (w : World) (service_name service_url : String) : List String :=
  match refreshServiceBody w service_name service_url with
  | .error _ => []
  | .ok ts => ts

/-- Modelled from the spec's words ("last writer wins", "last-processed-backend
wins"): the owner of a tool is the last catalog service, in processing order,
whose discovery pass reported that tool.  Used as the specification side of
the refresh refinement theorem. -/
def ownerOf (w : World) (catalog : List (String × String)) (t : String) :
    Option String :=
  match catalog with
  | [] => none
  | sp :: rest =>
    match ownerOf w rest t with
    | some s => some s
    | none => if t ∈ contributes w sp.1 sp.2 then some sp.1 else none

theorem regLookup_foldl_regInsert (tools : List String) (sname : String)
    (reg : RegMap) (t : String) :
    regLookup (tools.foldl (fun r t' => regInsert r t' sname) reg) t =
      if t ∈ tools then some sname else regLookup reg t := by
  induction tools generalizing reg with
  | nil => simp
  | cons t' ts ih =>
    simp only [List.foldl_cons]
    rw [ih]
    by_cases h2 : t' = t
    · subst h2
      by_cases h1 : t' ∈ ts <;> simp [regLookup_regInsert, h1, List.mem_cons]
    · by_cases h1 : t ∈ ts <;>
        simp [regLookup_regInsert, h1, h2, Ne.symm h2, List.mem_cons]

theorem regLookup_refreshService (w : World) (reg : RegMap)
    (sname surl t : String) :
    regLookup (refreshService w reg sname surl) t =
      if t ∈ contributes w sname surl then some sname else regLookup reg t := by
  unfold refreshService contributes
  cases refreshServiceBody w sname surl with
  | error e => simp
  | ok ts => simp [regLookup_foldl_regInsert]

theorem ownerOf_cons (w : World) (sp : String × String)
    (rest : List (String × String)) (t : String) :
    ownerOf w (sp :: rest) t =
      match ownerOf w rest t with
      | some s => some s
      | none => if t ∈ contributes w sp.1 sp.2 then some sp.1 else none := rfl

theorem regLookup_foldl_refreshService (w : World)
    (catalog : List (String × String)) (reg : RegMap) (t : String) :
    regLookup (catalog.foldl (fun r sp => refreshService w r sp.1 sp.2) reg) t =
      match ownerOf w catalog t with
      | some s => some s
      | none => regLookup reg t := by
  induction catalog generalizing reg with
  | nil => simp [ownerOf]
  | cons sp rest ih =>
    simp only [List.foldl_cons]
    rw [ih, ownerOf_cons]
    cases ownerOf w rest t with
    | some s => simp
    | none =>
      rw [regLookup_refreshService]
      by_cases h : t ∈ contributes w sp.1 sp.2 <;> simp [h]

/-- The central refresh characterization: after a refresh, looking a tool up
returns exactly the last-processed catalog service that reported it, and the
previous registry contents are irrelevant. -/
theorem regLookup_refresh (old : RegMap) (w : World)
    (catalog : List (String × String)) (t : String) :
    regLookup (refresh_tool_registry old w catalog) t = ownerOf w catalog t := by
  unfold refresh_tool_registry
  rw [regLookup_foldl_refreshService]
  cases ownerOf w catalog t <;> simp [regLookup]

theorem ownerOf_isSome (w : World) (catalog : List (String × String)) (t : String) :
    (ownerOf w catalog t).isSome ↔ ∃ sp ∈ catalog, t ∈ contributes w sp.1 sp.2 := by
  induction catalog with
  | nil => simp [ownerOf]
  | cons sp rest ih =>
    unfold ownerOf
    cases h : ownerOf w rest t with
    | some s =>
      simp only [Option.isSome_some, true_iff]
      have : (ownerOf w rest t).isSome := by simp [h]
      obtain ⟨sq, hmem, hc⟩ := ih.mp this
      exact ⟨sq, List.mem_cons_of_mem _ hmem, hc⟩
    | none =>
      by_cases hc : t ∈ contributes w sp.1 sp.2
      · simp only [hc, if_pos, Option.isSome_some, true_iff]
        exact ⟨sp, List.mem_cons_self _ _, hc⟩
      · simp only [hc, if_neg, not_false_iff, Option.isSome_none]
        constructor
        · intro hfalse; cases hfalse
        · rintro ⟨sq, hmem, hcq⟩
          rcases List.mem_cons.mp hmem with rfl | hmem'
          · exact absurd hcq hc
          · have : (ownerOf w rest t).isSome := ih.mpr ⟨sq, hmem', hcq⟩
            rw [h] at this
            cases this

/-! ## Tool invocation (`execute_tool`, server.py lines 137-212)

The handler resolves the tool (one registry refresh at most), then dispatches:
a hardcoded GET convention for `get_current_time`, otherwise a loop over four
candidate POST endpoints.  The Prometheus counter increments and the
endpoints actually attempted are recorded in an `ExecTrace` alongside the
HTTP outcome, so that theorems can speak about the handler's side effects. -/

/-- The static service catalog `SERVICES` (server.py lines 36-39). -/
def SERVICES : RegMap :=
  [("time-client", "http://time-client:8003"),
   ("code-executor", "http://code-executor:8002")]

/-- Result of the special-case GET: a response (status and raw text), or a
raised exception. -/
inductive GetResp where
  | resp (status : Nat) (text : String) : GetResp
  | exn : GetResp

/-- Result of one candidate POST: a response with a status and a body
(`none` models a body on which `response.json()` raises), or a raised
exception (timeout / connection error). -/
inductive PostResp where
  | resp (status : Nat) (body : Option Json) : PostResp
  | exn : PostResp

/-- An invocation-time network world: what each GET and each POST (keyed by
URL and posted JSON body) returns. -/
structure InvokeWorld where
  getAt : String → GetResp
  postAt : String → Json → PostResp

/-- The handler's HTTP result: a JSON success body, or an `HTTPException`
with a status code and a detail message. -/
inductive ExecOutcome where
  | ok (body : Json) : ExecOutcome
  | httpError (status : Nat) (detail : String) : ExecOutcome

/-- Whether the handler returned a success body. -/
def ExecOutcome.isSuccess : ExecOutcome → Bool
  | .ok _ => true
  | .httpError _ _ => false

/-- The observable behavior of one `execute_tool` call: the HTTP outcome,
the increments applied to the per-tool `success` and `error` Prometheus
counters, the number of `refresh_tool_registry` calls made, the URLs hit by
the special-case GET and by the candidate-POST loop (in order), and the
endpoints for which the loop logged a non-200/404 response at error level. -/
structure ExecTrace where
  outcome : ExecOutcome
  succInc : Nat
  errInc : Nat
  refreshCount : Nat
  getAttempts : List String
  postAttempts : List String
  postErrorLogs : List String

/-- The ordered candidate invocation endpoints (server.py lines 172-177). -/
def invokeEndpoints (service_url tool_name : String) : List String :=
  [service_url ++ "/mcp/tools/" ++ tool_name,
   service_url ++ "/tools/" ++ tool_name,
   service_url ++ "/" ++ tool_name,
   service_url ++ "/execute"]

/-- Python's `repr` of a list of strings, used in the 404 detail message
`f"... Available tools: \x7blist(tool_registry.keys())\x7d"`. -/
def pyListRepr (xs : List String) : String :=
  "[" ++ String.intercalate ", " (xs.map (fun s => "'" ++ s ++ "'")) ++ "]"

/-- The 404 detail message (server.py lines 144-147). -/
def notFoundDetail (tool_name : String) (reg : RegMap) : String :=
  "Tool '" ++ tool_name ++ "' not found. Available tools: " ++ pyListRepr (regKeys reg)

/-- The 500 detail message when every candidate endpoint failed (server.py
lines 202-205).  Note it names the tool and the service but not the
attempted endpoint paths. -/
def exhaustedDetail (tool_name service_name : String) : String :=
  "Failed to execute " ++ tool_name ++ " on " ++ service_name ++
    " - no working endpoints found"

/-- Accumulated observations of the candidate-POST loop (server.py lines
179-198): endpoints attempted in order, endpoints whose non-200/404 response
was logged at error level, increments of the `success` counter, and the
parsed body of the authoritative response if one was reached. -/
structure LoopResult where
  attempted : List String
  logged : List String
  succIncs : Nat
  result : Option Json

/-- The `for endpoint in endpoints_to_try` loop (server.py lines 179-198).
A 200 response increments the success counter and then parses the body: a
parse failure raises inside the `try`, is caught, and the loop continues
(with the counter already incremented).  A 404 continues silently; any other
status is logged at error level and the loop also continues; a raised
exception is logged at debug level and the loop continues. -/
def tryEndpoints (w : InvokeWorld) (body : Json) : List String → LoopResult
  | [] => ⟨[], [], 0, none⟩
  | e :: rest =>
    match w.postAt e body with
    | .exn =>
      let r := tryEndpoints w body rest
      ⟨e :: r.attempted, r.logged, r.succIncs, r.result⟩
    | .resp status mb =>
      if status = 200 then
        match mb with
        | some j => ⟨[e], [], 1, some j⟩
        | none =>
          let r := tryEndpoints w body rest
          ⟨e :: r.attempted, r.logged, r.succIncs + 1, r.result⟩
      else if status = 404 then
        let r := tryEndpoints w body rest
        ⟨e :: r.attempted, r.logged, r.succIncs, r.result⟩
      else
        let r := tryEndpoints w body rest
        ⟨e :: r.attempted, e :: r.logged, r.succIncs, r.result⟩

/-- The registry in force after the resolution step of `execute_tool`
(server.py lines 140-141): refreshed once when the tool is initially
absent, untouched otherwise. -/
def effectiveReg (refreshW : World) (reg : RegMap) (tool_name : String) : RegMap :=
  if regLookup reg tool_name = none
  then refresh_tool_registry reg refreshW SERVICES
  else reg

/-- Outcome assembly after the candidate loop: a parsed authoritative body is
returned as the handler's JSON response; exhaustion increments the error
counter and raises the 500 `HTTPException`, which the outer
`except HTTPException` re-raises unchanged (server.py lines 186-208). -/
def runGenericLoop (invW : InvokeWorld) (rc : Nat) (gets : List String)
    (tool_name service_name service_url : String) (body : Json) : ExecTrace :=
  let r := tryEndpoints invW body (invokeEndpoints service_url tool_name)
  match r.result with
  | some j =>
    { outcome := .ok j, succInc := r.succIncs, errInc := 0, refreshCount := rc,
      getAttempts := gets, postAttempts := r.attempted, postErrorLogs := r.logged }
  | none =>
    { outcome := .httpError 500 (exhaustedDetail tool_name service_name),
      succInc := r.succIncs, errInc := 1, refreshCount := rc,
      getAttempts := gets, postAttempts := r.attempted, postErrorLogs := r.logged }

/-- `execute_tool(tool_name, parameters)` (server.py lines 137-212).
`parameters` is the optional JSON object body; `if parameters:` only selects
between posting `parameters` and posting `{}`, which coincides with posting
the object `parameters or \x7b\x7d`, modelled as `Json.obj (parameters.getD [])`.
The `SERVICES[service_name]` lookup (line 150) is modelled with a default,
unreachable in practice because refresh only writes catalog keys into the
registry. -/
def execute_tool (refreshW : World) (invW : InvokeWorld) (reg : RegMap)
    (tool_name : String) (parameters : Option (List (String × Json))) : ExecTrace :=
  let reg1 := effectiveReg refreshW reg tool_name
  let rc := if regLookup reg tool_name = none then 1 else 0
  match regLookup reg1 tool_name with
  | none =>
    { outcome := .httpError 404 (notFoundDetail tool_name reg1),
      succInc := 0, errInc := 0, refreshCount := rc,
      getAttempts := [], postAttempts := [], postErrorLogs := [] }
  | some service_name =>
    let service_url := (regLookup SERVICES service_name).getD ""
    let body : Json := .obj (parameters.getD [])
    if tool_name = "get_current_time" then
      match invW.getAt (service_url ++ "/current-time") with
      | .resp st text =>
        if st = 200 then
          { outcome := .ok (.obj [("success", .bool true),
              ("output", .str (pyStrip '"' text))]),
            succInc := 1, errInc := 0, refreshCount := rc,
            getAttempts := [service_url ++ "/current-time"],
            postAttempts := [], postErrorLogs := [] }
        else
          runGenericLoop invW rc [service_url ++ "/current-time"]
            tool_name service_name service_url body
      | .exn =>
        runGenericLoop invW rc [service_url ++ "/current-time"]
          tool_name service_name service_url body
    else
      runGenericLoop invW rc [] tool_name service_name service_url body

/-! ## Sandboxed code execution (`execute_code`, sandbox/app/main.py lines 62-96) -/

/-- What `subprocess.run(['python3', ...], timeout=5)` does for a given code
submission: the process finished within the timeout (with its exit status,
stdout and stderr), `subprocess.TimeoutExpired` was raised, or some other
exception was raised anywhere in the `try` block (e.g. by the file write). -/
inductive RunOutcome where
  | finished (returncode : Int) (stdout stderr : String) : RunOutcome
  | timedOut : RunOutcome
  | raised (msg : String) : RunOutcome

/-- The sandbox's `CodeResponse` model (sandbox/app/main.py lines 44-47). -/
structure CodeResponse where
  success : Bool
  output : String
  error : String

/-- The `/execute` handler (sandbox/app/main.py lines 62-96): a finished
subprocess yields `success=True` with its stdout and stderr, regardless of
its exit status; a timeout raises `HTTPException(400, "Execution timed
out")`; any other exception raises `HTTPException(400, str(e))`. -/
def execute_code (run : RunOutcome) : Except (Nat × String) CodeResponse :=
  match run with
  | .finished _ out err => .ok ⟨true, out, err⟩
  | .timedOut => .error (400, "Execution timed out")
  | .raised m => .error (400, m)

/-! ## Characterizations of the candidate-POST loop -/

/-- A response the loop returns from: status 200 with a body that parses.
(The loop increments the success counter on any 200 response, but only
returns when the body also parses.) -/
def isAuthoritative : PostResp → Bool
  | .resp s (some _) => s == 200
  | _ => false

/-- A 200 response whose body fails to parse: `response.json()` raises after
the success counter was already incremented, and the loop continues. -/
def isParseFailure : PostResp → Bool
  | .resp s none => s == 200
  | _ => false

/-- A response the loop logs at error level: any status other than 200 and
404 (server.py line 194). -/
def isLoggedMiss : PostResp → Bool
  | .resp s _ => !(s == 200) && !(s == 404)
  | .exn => false

theorem tryEndpoints_cons (w : InvokeWorld) (body : Json) (e : String)
    (rest : List String) :
    tryEndpoints w body (e :: rest) =
      match w.postAt e body with
      | .exn =>
        ⟨e :: (tryEndpoints w body rest).attempted, (tryEndpoints w body rest).logged,
         (tryEndpoints w body rest).succIncs, (tryEndpoints w body rest).result⟩
      | .resp status mb =>
        if status = 200 then
          match mb with
          | some j => ⟨[e], [], 1, some j⟩
          | none =>
            ⟨e :: (tryEndpoints w body rest).attempted, (tryEndpoints w body rest).logged,
             (tryEndpoints w body rest).succIncs + 1, (tryEndpoints w body rest).result⟩
        else if status = 404 then
          ⟨e :: (tryEndpoints w body rest).attempted, (tryEndpoints w body rest).logged,
           (tryEndpoints w body rest).succIncs, (tryEndpoints w body rest).result⟩
        else
          ⟨e :: (tryEndpoints w body rest).attempted,
           e :: (tryEndpoints w body rest).logged,
           (tryEndpoints w body rest).succIncs, (tryEndpoints w body rest).result⟩ := rfl

theorem tryEndpoints_cons_notAuth (w : InvokeWorld) (body : Json) (x : String)
    (rest : List String) (hx : isAuthoritative (w.postAt x body) = false) :
    tryEndpoints w body (x :: rest) =
      ⟨x :: (tryEndpoints w body rest).attempted,
       if isLoggedMiss (w.postAt x body) then x :: (tryEndpoints w body rest).logged
         else (tryEndpoints w body rest).logged,
       (tryEndpoints w body rest).succIncs +
         (if isParseFailure (w.postAt x body) then 1 else 0),
       (tryEndpoints w body rest).result⟩ := by
  rw [tryEndpoints_cons]
  cases hp : w.postAt x body with
  | exn => simp [isLoggedMiss, isParseFailure]
  | resp s mb =>
    rw [hp] at hx
    cases mb with
    | some j =>
      have hs : ¬ s = 200 := by
        intro hs200
        subst hs200
        simp [isAuthoritative] at hx
      by_cases h404 : s = 404
      · subst h404
        simp [isLoggedMiss, isParseFailure]
      · simp [hs, h404, isLoggedMiss, isParseFailure, Nat.add_zero]
    | none =>
      by_cases hs : s = 200
      · subst hs
        simp [isLoggedMiss, isParseFailure]
      · by_cases h404 : s = 404
        · subst h404
          simp [isLoggedMiss, isParseFailure]
        · simp [hs, h404, isLoggedMiss, isParseFailure]

theorem tryEndpoints_eq_of_noAuth (w : InvokeWorld) (body : Json)
    (es : List String)
    (h : ∀ e ∈ es, isAuthoritative (w.postAt e body) = false) :
    tryEndpoints w body es =
      ⟨es, es.filter (fun e => isLoggedMiss (w.postAt e body)),
       (es.filter (fun e => isParseFailure (w.postAt e body))).length, none⟩ := by
  induction es with
  | nil => rfl
  | cons x rest ih =>
    have hx := h x (List.mem_cons_self _ _)
    have hrest := ih (fun e he => h e (List.mem_cons_of_mem _ he))
    rw [tryEndpoints_cons_notAuth w body x rest hx, hrest]
    simp only [List.filter_cons]
    by_cases hl : isLoggedMiss (w.postAt x body) <;>
      by_cases hpf : isParseFailure (w.postAt x body) <;>
        simp [hl, hpf]

theorem tryEndpoints_firstAuth (w : InvokeWorld) (body : Json)
    (pre post : List String) (e : String) (j : Json)
    (hpre : ∀ x ∈ pre, isAuthoritative (w.postAt x body) = false)
    (he : w.postAt e body = .resp 200 (some j)) :
    tryEndpoints w body (pre ++ e :: post) =
      ⟨pre ++ [e], pre.filter (fun x => isLoggedMiss (w.postAt x body)),
       (pre.filter (fun x => isParseFailure (w.postAt x body))).length + 1,
       some j⟩ := by
  induction pre with
  | nil =>
    simp only [List.nil_append, List.filter_nil, List.length_nil, Nat.zero_add]
    rw [tryEndpoints_cons, he]
    simp
  | cons x rest ih =>
    have hx := hpre x (List.mem_cons_self _ _)
    have hrest := ih (fun y hy => hpre y (List.mem_cons_of_mem _ hy))
    rw [List.cons_append, tryEndpoints_cons_notAuth w body x _ hx, hrest]
    simp only [List.filter_cons]
    by_cases hl : isLoggedMiss (w.postAt x body) <;>
      by_cases hpf : isParseFailure (w.postAt x body) <;>
        simp [hl, hpf]

/-! ## Characterizations of `execute_tool` -/

theorem execute_tool_unresolved (refreshW : World) (invW : InvokeWorld)
    (reg : RegMap) (tool_name : String)
    (parameters : Option (List (String × Json)))
    (h : regLookup (effectiveReg refreshW reg tool_name) tool_name = none) :
    execute_tool refreshW invW reg tool_name parameters =
      ⟨.httpError 404 (notFoundDetail tool_name (effectiveReg refreshW reg tool_name)),
       0, 0, if regLookup reg tool_name = none then 1 else 0, [], [], []⟩ := by
  unfold execute_tool
  simp only [h]

theorem execute_tool_resolved_generic (refreshW : World) (invW : InvokeWorld)
    (reg : RegMap) (tool_name : String)
    (parameters : Option (List (String × Json))) (sname : String)
    (hres : regLookup (effectiveReg refreshW reg tool_name) tool_name = some sname)
    (hns : tool_name ≠ "get_current_time") :
    execute_tool refreshW invW reg tool_name parameters =
      runGenericLoop invW (if regLookup reg tool_name = none then 1 else 0) []
        tool_name sname ((regLookup SERVICES sname).getD "")
        (Json.obj (parameters.getD [])) := by
  unfold execute_tool
  simp only [hres, hns, if_false, reduceIte]

theorem execute_tool_gct (refreshW : World) (invW : InvokeWorld)
    (reg : RegMap) (parameters : Option (List (String × Json)))
    (sname text : String)
    (hres : regLookup (effectiveReg refreshW reg "get_current_time")
        "get_current_time" = some sname)
    (hget : invW.getAt (((regLookup SERVICES sname).getD "") ++ "/current-time") =
        .resp 200 text) :
    execute_tool refreshW invW reg "get_current_time" parameters =
      ⟨.ok (.obj [("success", .bool true), ("output", .str (pyStrip '"' text))]),
       1, 0, if regLookup reg "get_current_time" = none then 1 else 0,
       [((regLookup SERVICES sname).getD "") ++ "/current-time"], [], []⟩ := by
  unfold execute_tool
  simp only [hres, hget, if_pos rfl, reduceIte]

theorem runGenericLoop_refreshCount (invW : InvokeWorld) (rc : Nat)
    (gets : List String) (tool_name service_name service_url : String)
    (body : Json) :
    (runGenericLoop invW rc gets tool_name service_name service_url body).refreshCount
      = rc := by
  unfold runGenericLoop
  cases h : (tryEndpoints invW body (invokeEndpoints service_url tool_name)).result <;>
    simp [h]

theorem execute_tool_refreshCount (refreshW : World) (invW : InvokeWorld)
    (reg : RegMap) (tool_name : String)
    (parameters : Option (List (String × Json))) :
    (execute_tool refreshW invW reg tool_name parameters).refreshCount =
      if regLookup reg tool_name = none then 1 else 0 := by
  unfold execute_tool
  cases h : regLookup (effectiveReg refreshW reg tool_name) tool_name with
  | none => simp [h]
  | some sname =>
    by_cases hg : tool_name = "get_current_time"
    · subst hg
      cases hget : invW.getAt (((regLookup SERVICES sname).getD "") ++ "/current-time") with
      | resp st text =>
        by_cases hst : st = 200 <;> simp [h, hget, hst, runGenericLoop_refreshCount]
      | exn => simp [h, hget, runGenericLoop_refreshCount]
    · simp [h, hg, runGenericLoop_refreshCount]

/-- When no candidate POST yields a 200 response with an unparseable body,
the success counter is incremented during the loop exactly when the loop
reaches an authoritative response. -/
theorem tryEndpoints_succIncs (w : InvokeWorld) (body : Json) (es : List String)
    (hp : ∀ e ∈ es, isParseFailure (w.postAt e body) = false) :
    (tryEndpoints w body es).succIncs =
      if (tryEndpoints w body es).result.isSome then 1 else 0 := by
  induction es with
  | nil => rfl
  | cons x rest ih =>
    have hx := hp x (List.mem_cons_self _ _)
    have hrest := ih (fun e he => hp e (List.mem_cons_of_mem _ he))
    rw [tryEndpoints_cons]
    cases hpost : w.postAt x body with
    | exn => simpa using hrest
    | resp s mb =>
      rw [hpost] at hx
      cases mb with
      | some j =>
        by_cases hs : s = 200
        · simp [hs]
        · by_cases h404 : s = 404 <;> simpa [hs, h404] using hrest
      | none =>
        have hs : ¬ s = 200 := by
          intro hs200
          subst hs200
          simp [isParseFailure] at hx
        by_cases h404 : s = 404 <;> simpa [hs, h404] using hrest

/-! ## Lemmas about discovery -/

theorem firstDiscovered_none (probe : String → DiscProbe) (es : List String)
    (h : ∀ e ∈ es, discProbeNames (probe e) = none) :
    firstDiscovered probe es = none := by
  induction es with
  | nil => rfl
  | cons e rest ih =>
    unfold firstDiscovered
    rw [h e (List.mem_cons_self _ _)]
    exact ih (fun x hx => h x (List.mem_cons_of_mem _ hx))

theorem firstDiscovered_append (probe : String → DiscProbe)
    (pre post : List String) (e : String) (ns : List String)
    (hpre : ∀ x ∈ pre, discProbeNames (probe x) = none)
    (he : discProbeNames (probe e) = some ns) :
    firstDiscovered probe (pre ++ e :: post) = some ns := by
  induction pre with
  | nil =>
    rw [List.nil_append]
    unfold firstDiscovered
    rw [he]
  | cons x rest ih =>
    rw [List.cons_append]
    unfold firstDiscovered
    rw [hpre x (List.mem_cons_self _ _)]
    exact ih (fun y hy => hpre y (List.mem_cons_of_mem _ hy))

/-! ## Key uniqueness of the registry -/

theorem regKeys_regInsert (reg : RegMap) (k v : String) :
    regKeys (regInsert reg k v) =
      if k ∈ regKeys reg then regKeys reg else regKeys reg ++ [k] := by
  induction reg with
  | nil => simp [regInsert, regKeys]
  | cons p rest ih =>
    obtain ⟨a, b⟩ := p
    unfold regInsert
    by_cases hak : a = k
    · subst hak
      simp [regKeys]
    · have hka : ¬ (k = a) := fun hh => hak hh.symm
      simp only [if_neg hak, regKeys, List.map_cons, List.mem_cons, hka,
        false_or] at ih ⊢
      rw [ih]
      by_cases hk : k ∈ List.map (fun p => p.1) rest <;> simp [hk]

theorem regKeys_regInsert_nodup (reg : RegMap) (k v : String)
    (h : (regKeys reg).Nodup) : (regKeys (regInsert reg k v)).Nodup := by
  rw [regKeys_regInsert]
  by_cases hk : k ∈ regKeys reg
  · simpa [hk] using h
  · simp only [hk, if_neg, not_false_iff]
    simp [List.nodup_append, h, hk]

theorem foldl_regInsert_nodup (tools : List String) (sname : String)
    (reg : RegMap) (h : (regKeys reg).Nodup) :
    (regKeys (tools.foldl (fun r t => regInsert r t sname) reg)).Nodup := by
  induction tools generalizing reg with
  | nil => exact h
  | cons t ts ih =>
    exact ih _ (regKeys_regInsert_nodup _ _ _ h)

theorem refreshService_nodup (w : World) (reg : RegMap)
    (sname surl : String) (h : (regKeys reg).Nodup) :
    (regKeys (refreshService w reg sname surl)).Nodup := by
  unfold refreshService
  cases refreshServiceBody w sname surl with
  | error e => exact h
  | ok ts => exact foldl_regInsert_nodup ts sname reg h

theorem refresh_keys_nodup (old : RegMap) (w : World)
    (catalog : List (String × String)) :
    (regKeys (refresh_tool_registry old w catalog)).Nodup := by
  unfold refresh_tool_registry
  suffices hgen : ∀ reg : RegMap, (regKeys reg).Nodup →
      (regKeys (catalog.foldl (fun r sp => refreshService w r sp.1 sp.2) reg)).Nodup by
    exact hgen [] (by simp [regKeys])
  induction catalog with
  | nil => exact fun reg h => h
  | cons sp rest ih =>
    exact fun reg h => ih _ (refreshService_nodup w reg sp.1 sp.2 h)

/-! ## Failure isolation during refresh -/

/-- A backend whose health check failed during a given refresh pass: the
health GET raised, or returned a non-200 status. -/
def healthFailed (w : World) (sname : String) : Prop :=
  (w sname).health = .exn ∨ ∃ c, (w sname).health = .status c ∧ c ≠ 200

theorem contributes_of_healthFailed (w : World) (sname surl : String)
    (h : healthFailed w sname) : contributes w sname surl = [] := by
  unfold contributes refreshServiceBody
  rcases h with h | ⟨c, hc, hne⟩
  · rw [h]
  · rw [hc]
    simp [hne]

theorem refreshService_of_healthFailed (w : World) (reg : RegMap)
    (sname surl : String) (h : healthFailed w sname) :
    refreshService w reg sname surl = reg := by
  unfold refreshService refreshServiceBody
  rcases h with h | ⟨c, hc, hne⟩
  · rw [h]
  · rw [hc]
    simp [hne]

theorem ownerOf_mem (w : World) (catalog : List (String × String))
    (t s : String) (h : ownerOf w catalog t = some s) :
    ∃ surl, (s, surl) ∈ catalog ∧ t ∈ contributes w s surl := by
  induction catalog with
  | nil => cases h
  | cons sp rest ih =>
    rw [ownerOf_cons] at h
    cases hrest : ownerOf w rest t with
    | some s' =>
      rw [hrest] at h
      cases h
      obtain ⟨surl, hmem, hc⟩ := ih hrest
      exact ⟨surl, List.mem_cons_of_mem _ hmem, hc⟩
    | none =>
      rw [hrest] at h
      by_cases hc : t ∈ contributes w sp.1 sp.2
      · rw [if_pos hc] at h
        cases h
        exact ⟨sp.2, List.mem_cons_self _ _, hc⟩
      · rw [if_neg hc] at h
        cases h

theorem refresh_filter_of_healthFailed (old : RegMap) (w : World)
    (catalog : List (String × String)) (sname : String)
    (h : healthFailed w sname) :
    refresh_tool_registry old w catalog =
      refresh_tool_registry old w (catalog.filter (fun sp => sp.1 != sname)) := by
  unfold refresh_tool_registry
  suffices hgen : ∀ reg : RegMap,
      catalog.foldl (fun r sp => refreshService w r sp.1 sp.2) reg =
      (catalog.filter (fun sp => sp.1 != sname)).foldl
        (fun r sp => refreshService w r sp.1 sp.2) reg by
    exact hgen []
  induction catalog with
  | nil => intro reg; rfl
  | cons sp rest ih =>
    intro reg
    rw [List.filter_cons]
    by_cases hsp : sp.1 = sname
    · have hb : (sp.1 != sname) = false := by simp [hsp]
      rw [hb]
      simp only [Bool.false_eq_true, if_false, List.foldl_cons]
      have hid : refreshService w reg sp.1 sp.2 = reg := by
        rw [hsp]
        exact refreshService_of_healthFailed w reg sname sp.2 h
      rw [hid]
      exact ih reg
    · have hb : (sp.1 != sname) = true := by simp [hsp]
      rw [hb]
      simp only [if_true, List.foldl_cons]
      exact ih (refreshService w reg sp.1 sp.2)

/-! ## Concrete demonstration worlds -/

/-- A discovery probe on which every request raises. -/
def probeAllExn : String → DiscProbe := fun _ => .exn

/-- A refresh world in which every backend's health check raises. -/
def wAllDown : World := fun _ => ⟨.exn, probeAllExn⟩

/-- An invocation world in which every outbound request raises. -/
def invAllExn : InvokeWorld := ⟨fun _ => .exn, fun _ _ => .exn⟩

/-- A refresh world where both catalog services are healthy and every
discovery probe reports the single tool `shared_tool`. -/
def wShared : World := fun _ =>
  ⟨.status 200, fun _ => .resp 200 (some (.list ["shared_tool"]))⟩

/-- A refresh world where the code-executor's health check raises and the
time-client is healthy, reporting `get_current_time`. -/
def wExecDown : World := fun sname =>
  if sname = "code-executor" then ⟨.exn, probeAllExn⟩
  else ⟨.status 200, fun _ => .resp 200 (some (.list ["get_current_time"]))⟩

/-- A discovery probe whose first candidate endpoint answers 200 with a
duplicated tool list. -/
def dupProbe : String → DiscProbe := fun e =>
  if e = "http://x/tools" then .resp 200 (some (.list ["same_tool", "same_tool"]))
  else .exn

/-- A discovery probe whose first candidate 404s and whose second candidate
answers with the object shape. -/
def probeSecondOk : String → DiscProbe := fun e =>
  if e = "http://y/mcp/tools" then .resp 200 (some (.objWithTools ["tool_a", "tool_b"]))
  else .resp 404 none

/-! ## Claim theorems -/

/-- C1: invoking a tool name absent from the registry at call time triggers
exactly one registry refresh (never two, never a loop), and if the tool is
still unresolved after that single refresh the call fails with the 404
`UnknownTool` outcome. -/
theorem unknown_tool_single_refresh (refreshW : World) (invW : InvokeWorld)
    (reg : RegMap) (tool_name : String)
    (parameters : Option (List (String × Json)))
    (habs : regLookup reg tool_name = none) :
    (execute_tool refreshW invW reg tool_name parameters).refreshCount = 1 ∧
    (regLookup (refresh_tool_registry reg refreshW SERVICES) tool_name = none →
      (execute_tool refreshW invW reg tool_name parameters).outcome =
        .httpError 404 (notFoundDetail tool_name
          (refresh_tool_registry reg refreshW SERVICES))) := by
  constructor
  · rw [execute_tool_refreshCount]
    simp [habs]
  · intro hnone
    have heff : effectiveReg refreshW reg tool_name =
        refresh_tool_registry reg refreshW SERVICES := by
      unfold effectiveReg
      rw [if_pos habs]
    have h404 : regLookup (effectiveReg refreshW reg tool_name) tool_name = none := by
      rw [heff]
      exact hnone
    rw [execute_tool_unresolved refreshW invW reg tool_name parameters h404, heff]

/-- C1 witness: with an empty registry, a refresh world where every backend
is down, and an unknown tool name, the call performs exactly one refresh and
returns the 404 outcome. -/
theorem unknown_tool_single_refresh_witness :
    (execute_tool wAllDown invAllExn [] "nope" none).refreshCount = 1 ∧
    (execute_tool wAllDown invAllExn [] "nope" none).outcome =
      .httpError 404 (notFoundDetail "nope"
        (refresh_tool_registry [] wAllDown SERVICES)) := by
  have h := unknown_tool_single_refresh wAllDown invAllExn [] "nope" none rfl
  exact ⟨h.1, h.2 rfl⟩

/-- C4: after any completed refresh, lookup coincides with the
last-processed-backend-wins owner function; a tool name is present exactly
when some catalog backend reported it in this pass (so entries not
rediscovered are gone); the result is independent of the registry's previous
contents; and the rebuilt registry holds at most one backend per tool name
(its keys are unique). -/
theorem refresh_rebuilds_registry (old old2 : RegMap) (w : World)
    (catalog : List (String × String)) (t : String) :
    regLookup (refresh_tool_registry old w catalog) t = ownerOf w catalog t ∧
    ((regLookup (refresh_tool_registry old w catalog) t).isSome ↔
      ∃ sp ∈ catalog, t ∈ contributes w sp.1 sp.2) ∧
    refresh_tool_registry old w catalog = refresh_tool_registry old2 w catalog ∧
    (regKeys (refresh_tool_registry old w catalog)).Nodup := by
  refine ⟨regLookup_refresh old w catalog t, ?_, rfl, refresh_keys_nodup old w catalog⟩
  rw [regLookup_refresh]
  exact ownerOf_isSome w catalog t

/-- C4 witness: with both services healthy and both reporting `shared_tool`,
the later-processed `code-executor` owns the tool, and a stale entry in the
previous registry contents is gone after the refresh. -/
theorem refresh_rebuilds_registry_witness :
    regLookup (refresh_tool_registry [("stale_tool", "time-client")] wShared SERVICES)
        "shared_tool" = ownerOf wShared SERVICES "shared_tool" ∧
    ownerOf wShared SERVICES "shared_tool" = some "code-executor" ∧
    regLookup (refresh_tool_registry [("stale_tool", "time-client")] wShared SERVICES)
        "stale_tool" = none := by
  refine ⟨(refresh_rebuilds_registry [("stale_tool", "time-client")] []
    wShared SERVICES "shared_tool").1, rfl, rfl⟩

/-- C5: when every candidate list-tools probe fails, discovery returns the
static fallback keyed by backend identity — `["get_current_time"]` for the
time backend, `["execute_python"]` for the code-execution backend and `[]`
for an unrecognized identity — and never raises. -/
theorem discover_static_fallback (probe : String → DiscProbe)
    (service_name service_url : String)
    (hfail : ∀ e ∈ discoveryEndpoints service_url, discProbeNames (probe e) = none) :
    discover_service_tools probe service_name service_url =
      (if strIn "time-client" service_name then ["get_current_time"]
       else if strIn "code-executor" service_name then ["execute_python"]
       else []) := by
  unfold discover_service_tools
  rw [firstDiscovered_none probe _ hfail]
  rfl

/-- C5 witness: with all probes raising, the time backend falls back to
`["get_current_time"]`, the code-execution backend to `["execute_python"]`,
and an unrecognized backend to `[]`. -/
theorem discover_static_fallback_witness :
    discover_service_tools probeAllExn "time-client" "http://t" = ["get_current_time"] ∧
    discover_service_tools probeAllExn "code-executor" "http://e" = ["execute_python"] ∧
    discover_service_tools probeAllExn "mystery-service" "http://m" = [] := by
  have h1 := discover_static_fallback probeAllExn "time-client" "http://t"
    (fun e he => rfl)
  have h2 := discover_static_fallback probeAllExn "code-executor" "http://e"
    (fun e he => rfl)
  have h3 := discover_static_fallback probeAllExn "mystery-service" "http://m"
    (fun e he => rfl)
  refine ⟨by rw [h1]; rfl, by rw [h2]; rfl, by rw [h3]; rfl⟩

/-- C7 counterexample: a backend whose probe reports `["same_tool",
"same_tool"]` makes discovery return that list verbatim — duplicates are NOT
removed, contradicting the claim. -/
theorem discover_no_dedup_counterexample :
    discover_service_tools dupProbe "svc-x" "http://x" = ["same_tool", "same_tool"] ∧
    ¬ (discover_service_tools dupProbe "svc-x" "http://x").Nodup := by
  refine ⟨rfl, by decide⟩

/-- C7 (amended): for every backend whose probes succeed at some candidate
endpoint, discovery returns exactly the names reported by the first
succeeding probe, verbatim (duplicates preserved, both accepted response
shapes — a plain list or an object with a `tools` field — handled alike). -/
theorem discover_returns_reported_verbatim (probe : String → DiscProbe)
    (service_name service_url : String) (pre post : List String) (e : String)
    (ns : List String)
    (hsplit : discoveryEndpoints service_url = pre ++ e :: post)
    (hpre : ∀ x ∈ pre, discProbeNames (probe x) = none)
    (hok : discProbeNames (probe e) = some ns) :
    discover_service_tools probe service_name service_url = ns ∧
    discProbeNames (.resp 200 (some (.list ns))) = some ns ∧
    discProbeNames (.resp 200 (some (.objWithTools ns))) = some ns := by
  refine ⟨?_, rfl, rfl⟩
  unfold discover_service_tools
  rw [hsplit, firstDiscovered_append probe pre post e ns hpre hok]

/-- C7 (amended) witness: the first candidate misses with 404, the second
answers the object shape with two names, and discovery returns exactly those
names. -/
theorem discover_returns_reported_verbatim_witness :
    discover_service_tools probeSecondOk "svc-y" "http://y" = ["tool_a", "tool_b"] := by
  have h := discover_returns_reported_verbatim probeSecondOk "svc-y" "http://y"
    ["http://y/tools"] ["http://y/api/tools"] "http://y/mcp/tools"
    ["tool_a", "tool_b"] rfl
    (fun x hx => by
      rw [List.mem_singleton] at hx
      subst hx
      rfl)
    rfl
  exact h.1

/-- C8: a backend whose health check fails during a refresh (raises, or
returns a non-200 status) contributes no tools — no tool name can resolve to
it afterwards — and removing it from the catalog changes nothing: every
remaining backend is still health-checked and discovered, and no exception
escapes the refresh (the refresh result is totally defined). -/
theorem refresh_isolates_failure (old : RegMap) (w : World)
    (catalog : List (String × String)) (sname : String)
    (hfail : healthFailed w sname) :
    (∀ t, regLookup (refresh_tool_registry old w catalog) t ≠ some sname) ∧
    refresh_tool_registry old w catalog =
      refresh_tool_registry old w (catalog.filter (fun sp => sp.1 != sname)) := by
  constructor
  · intro t hsome
    rw [regLookup_refresh] at hsome
    obtain ⟨surl, hmem, hc⟩ := ownerOf_mem w catalog t sname hsome
    rw [contributes_of_healthFailed w sname surl hfail] at hc
    cases hc
  · exact refresh_filter_of_healthFailed old w catalog sname hfail

/-- C8 witness: with the code-executor's health check raising, no tool
resolves to it, and the refresh over the full catalog equals the refresh
with the failing backend filtered out (the healthy time-client is still
discovered). -/
theorem refresh_isolates_failure_witness :
    regLookup (refresh_tool_registry [] wExecDown SERVICES) "execute_python" ≠
      some "code-executor" ∧
    refresh_tool_registry [] wExecDown SERVICES =
      refresh_tool_registry [] wExecDown
        (SERVICES.filter (fun sp => sp.1 != "code-executor")) := by
  have h := refresh_isolates_failure [] wExecDown SERVICES "code-executor" (Or.inl rfl)
  exact ⟨h.1 "execute_python", h.2⟩

/-- C10: the sandbox's `/execute` endpoint returns `success=True` with the
program's stdout and stderr whenever the subprocess finishes within the
timeout, regardless of the program's exit status; only a timeout or an
internal exception yields a non-success response, as HTTP 400. -/
theorem sandbox_success_independent_of_exit_status :
    (∀ (returncode : Int) (out err : String),
      execute_code (.finished returncode out err) = .ok ⟨true, out, err⟩) ∧
    execute_code .timedOut = .error (400, "Execution timed out") ∧
    (∀ m, execute_code (.raised m) = .error (400, m)) :=
  ⟨fun _ _ _ => rfl, rfl, fun _ => rfl⟩

/-! ## Remaining helper lemmas for the router claims -/

theorem execute_tool_gct_getFail (refreshW : World) (invW : InvokeWorld)
    (reg : RegMap) (parameters : Option (List (String × Json))) (sname : String)
    (hres : regLookup (effectiveReg refreshW reg "get_current_time")
        "get_current_time" = some sname)
    (hfailGet : ∀ text,
      invW.getAt (((regLookup SERVICES sname).getD "") ++ "/current-time") ≠
        .resp 200 text) :
    execute_tool refreshW invW reg "get_current_time" parameters =
      runGenericLoop invW (if regLookup reg "get_current_time" = none then 1 else 0)
        [((regLookup SERVICES sname).getD "") ++ "/current-time"]
        "get_current_time" sname ((regLookup SERVICES sname).getD "")
        (Json.obj (parameters.getD [])) := by
  unfold execute_tool
  cases hget : invW.getAt (((regLookup SERVICES sname).getD "") ++ "/current-time") with
  | resp st text =>
    have hst : ¬ st = 200 := by
      intro h
      subst h
      exact hfailGet text hget
    simp only [hres, hget, hst, if_pos rfl, reduceIte, if_neg hst]
  | exn =>
    simp only [hres, hget, if_pos rfl, reduceIte]

theorem runGenericLoop_counts (invW : InvokeWorld) (rc : Nat) (gets : List String)
    (tool_name service_name service_url : String) (body : Json)
    (hparse : ∀ e b, invW.postAt e b ≠ .resp 200 none) :
    (runGenericLoop invW rc gets tool_name service_name service_url body).succInc =
      (if (runGenericLoop invW rc gets tool_name service_name
          service_url body).outcome.isSuccess then 1 else 0) ∧
    (runGenericLoop invW rc gets tool_name service_name service_url body).errInc =
      (if (runGenericLoop invW rc gets tool_name service_name
          service_url body).outcome.isSuccess then 0 else 1) := by
  have hpf : ∀ e ∈ invokeEndpoints service_url tool_name,
      isParseFailure (invW.postAt e body) = false := by
    intro e he
    cases hp : invW.postAt e body with
    | exn => rfl
    | resp s mb =>
      cases mb with
      | some j => rfl
      | none =>
        by_cases hs : s = 200
        · subst hs
          exact absurd hp (hparse e body)
        · simp [isParseFailure, hs]
  have hsucc := tryEndpoints_succIncs invW body (invokeEndpoints service_url tool_name) hpf
  unfold runGenericLoop
  cases hr : (tryEndpoints invW body (invokeEndpoints service_url tool_name)).result with
  | some j =>
    rw [hr] at hsucc
    simp [hr, hsucc, ExecOutcome.isSuccess]
  | none =>
    rw [hr] at hsucc
    simp [hr, hsucc, ExecOutcome.isSuccess]

theorem execute_tool_counts (refreshW : World) (invW : InvokeWorld) (reg : RegMap)
    (tool_name : String) (parameters : Option (List (String × Json))) (sname : String)
    (hres : regLookup (effectiveReg refreshW reg tool_name) tool_name = some sname)
    (hparse : ∀ e b, invW.postAt e b ≠ .resp 200 none) :
    (execute_tool refreshW invW reg tool_name parameters).succInc =
      (if (execute_tool refreshW invW reg tool_name
          parameters).outcome.isSuccess then 1 else 0) ∧
    (execute_tool refreshW invW reg tool_name parameters).errInc =
      (if (execute_tool refreshW invW reg tool_name
          parameters).outcome.isSuccess then 0 else 1) := by
  by_cases hg : tool_name = "get_current_time"
  · subst hg
    cases hget : invW.getAt (((regLookup SERVICES sname).getD "") ++ "/current-time") with
    | resp st text =>
      by_cases hst : st = 200
      · subst hst
        rw [execute_tool_gct refreshW invW reg parameters sname text hres hget]
        exact ⟨rfl, rfl⟩
      · rw [execute_tool_gct_getFail refreshW invW reg parameters sname hres
          (fun t ht => by
            rw [hget] at ht
            injection ht with h1 h2
            exact hst h1)]
        exact runGenericLoop_counts invW _ _ _ _ _ _ hparse
    | exn =>
      rw [execute_tool_gct_getFail refreshW invW reg parameters sname hres
        (fun t ht => by
          rw [hget] at ht
          cases ht)]
      exact runGenericLoop_counts invW _ _ _ _ _ _ hparse
  · rw [execute_tool_resolved_generic refreshW invW reg tool_name parameters sname hres hg]
    exact runGenericLoop_counts invW _ _ _ _ _ _ hparse

/-- One inbound invocation of the gateway: the network worlds in force
during that call, the registry contents at call time, and the request
parameters. -/
structure Invocation where
  refreshW : World
  invW : InvokeWorld
  reg : RegMap
  params : Option (List (String × Json))

/-- Run one invocation of the named tool. -/
def runInv (tool_name : String) (i : Invocation) : ExecTrace :=
  execute_tool i.refreshW i.invW i.reg tool_name i.params

/-! ## More concrete demonstration worlds -/

/-- Registry holding one generic tool, owned by the code-executor. -/
def regMytool : RegMap := [("mytool", "code-executor")]

/-- An invocation world in which the first candidate endpoint returns 200
with an unparseable body and the second returns 200 with a JSON body. -/
def invFirstUnparseable : InvokeWorld :=
  ⟨fun _ => .exn,
   fun e _ =>
     if e = "http://code-executor:8002/mcp/tools/mytool" then .resp 200 none
     else if e = "http://code-executor:8002/tools/mytool" then
       .resp 200 (some (.str "second"))
     else .resp 404 none⟩

/-- Registry holding the tool used by the C2 witness. -/
def regOther : RegMap := [("othertool", "code-executor")]

/-- An invocation world where only the flat `/tools/...` shape answers. -/
def invSecondShape : InvokeWorld :=
  ⟨fun _ => .exn,
   fun e _ =>
     if e = "http://code-executor:8002/tools/othertool" then
       .resp 200 (some (.str "ok2"))
     else .resp 404 none⟩

/-- An invocation world in which every POST answers 404. -/
def invAll404 : InvokeWorld := ⟨fun _ => .exn, fun _ _ => .resp 404 none⟩

/-- Registry for the C3 counterexample. -/
def regMytool2 : RegMap := [("mytool2", "code-executor")]

/-- Registry for the C3 witness. -/
def regTool3 : RegMap := [("tool3", "time-client")]

/-- Registry owning `get_current_time`. -/
def regTime : RegMap := [("get_current_time", "time-client")]

/-- An invocation world where the time backend's GET `/current-time` answers
200 with a quoted JSON string. -/
def invTime : InvokeWorld :=
  ⟨fun e =>
     if e = "http://time-client:8003/current-time" then
       .resp 200 "\"2024-01-01T00:00:00+00:00 UTC\""
     else .exn,
   fun _ _ => .exn⟩

/-- A POST function that always succeeds with a parseable body. -/
def postAlwaysOk : String → Json → PostResp :=
  fun _ _ => .resp 200 (some (.str "done"))

/-- A POST function that always answers 404. -/
def postAlways404 : String → Json → PostResp := fun _ _ => .resp 404 none

/-- An invocation that will succeed at the first candidate endpoint. -/
def invocationSucc : Invocation :=
  ⟨wAllDown, ⟨fun _ => .exn, postAlwaysOk⟩, regMytool, none⟩

/-- An invocation that will exhaust every candidate endpoint. -/
def invocationFail : Invocation :=
  ⟨wAllDown, ⟨fun _ => .exn, postAlways404⟩, regMytool, none⟩

/-- Two invocations of the same tool: one success, one failure. -/
def invsDemo : List Invocation := [invocationSucc, invocationFail]

/-- Registry for the C9 counterexample. -/
def regBadjson : RegMap := [("badjson", "code-executor")]

/-- An invocation world where the first candidate answers 200 with an
unparseable body and all the others answer 404. -/
def invBadjson : InvokeWorld :=
  ⟨fun _ => .exn,
   fun e _ =>
     if e = "http://code-executor:8002/mcp/tools/badjson" then .resp 200 none
     else .resp 404 none⟩

/-! ## Claim theorems for the router -/

/-- C2 counterexample: the first candidate endpoint answers with success
status 200 (but an unparseable body); contrary to the claim that the first
success-status response is authoritative and no further candidate is
attempted, the loop goes on to the second candidate and returns its body. -/
theorem first_success_not_authoritative_counterexample :
    invFirstUnparseable.postAt "http://code-executor:8002/mcp/tools/mytool"
      (Json.obj []) = .resp 200 none ∧
    (execute_tool wAllDown invFirstUnparseable regMytool "mytool" none).postAttempts =
      ["http://code-executor:8002/mcp/tools/mytool",
       "http://code-executor:8002/tools/mytool"] ∧
    (execute_tool wAllDown invFirstUnparseable regMytool "mytool" none).outcome =
      .ok (.str "second") :=
  ⟨rfl, rfl, rfl⟩

/-- C2 (amended): for a tool without a special-case convention, the
candidate endpoints are attempted strictly in the order namespaced, flat,
bare, generic `/execute`; the first 200 response whose body parses as JSON is
authoritative (its body is returned, later candidates untouched); a 404
moves on silently; any other non-success status is logged and the loop
continues; and a 200 response with an unparseable body is also treated as a
miss. -/
theorem candidates_strict_order (refreshW : World) (invW : InvokeWorld)
    (reg : RegMap) (tool_name : String) (parameters : Option (List (String × Json)))
    (sname : String) (pre post : List String) (e : String) (j : Json)
    (hns : tool_name ≠ "get_current_time")
    (hres : regLookup (effectiveReg refreshW reg tool_name) tool_name = some sname)
    (hsplit : invokeEndpoints ((regLookup SERVICES sname).getD "") tool_name =
      pre ++ e :: post)
    (hpre : ∀ x ∈ pre,
      isAuthoritative (invW.postAt x (Json.obj (parameters.getD []))) = false)
    (hauth : invW.postAt e (Json.obj (parameters.getD [])) = .resp 200 (some j)) :
    (execute_tool refreshW invW reg tool_name parameters).outcome = .ok j ∧
    (execute_tool refreshW invW reg tool_name parameters).postAttempts = pre ++ [e] ∧
    (execute_tool refreshW invW reg tool_name parameters).postErrorLogs =
      pre.filter (fun x =>
        isLoggedMiss (invW.postAt x (Json.obj (parameters.getD [])))) := by
  rw [execute_tool_resolved_generic refreshW invW reg tool_name parameters sname hres hns]
  unfold runGenericLoop
  rw [hsplit,
    tryEndpoints_firstAuth invW (Json.obj (parameters.getD [])) pre post e j hpre hauth]
  simp

/-- C2 (amended) witness: the namespaced candidate 404s, the flat candidate
answers 200 with a body, and the bare and `/execute` candidates are never
attempted. -/
theorem candidates_strict_order_witness :
    (execute_tool wAllDown invSecondShape regOther "othertool" none).outcome =
      .ok (.str "ok2") ∧
    (execute_tool wAllDown invSecondShape regOther "othertool" none).postAttempts =
      ["http://code-executor:8002/mcp/tools/othertool",
       "http://code-executor:8002/tools/othertool"] := by
  have h := candidates_strict_order wAllDown invSecondShape regOther "othertool" none
    "code-executor"
    ["http://code-executor:8002/mcp/tools/othertool"]
    ["http://code-executor:8002/othertool", "http://code-executor:8002/execute"]
    "http://code-executor:8002/tools/othertool" (.str "ok2")
    (by decide) rfl rfl
    (fun x hx => by
      rw [List.mem_singleton] at hx
      subst hx
      rfl)
    rfl
  exact ⟨h.1, h.2.1⟩

/-- C3 counterexample: with all four candidates answering 404, the handler
returns 500, but the error body is the fixed message naming only the tool and
service — it contains none of the four attempted endpoint paths, contrary to
the claim that the body carries the attempted-path list. -/
theorem exhausted_detail_lacks_paths_counterexample :
    (execute_tool wAllDown invAll404 regMytool2 "mytool2" none).outcome =
      .httpError 500
        "Failed to execute mytool2 on code-executor - no working endpoints found" ∧
    (execute_tool wAllDown invAll404 regMytool2 "mytool2" none).postAttempts =
      ["http://code-executor:8002/mcp/tools/mytool2",
       "http://code-executor:8002/tools/mytool2",
       "http://code-executor:8002/mytool2",
       "http://code-executor:8002/execute"] ∧
    ((execute_tool wAllDown invAll404 regMytool2 "mytool2" none).postAttempts.all
      (fun p => !(strIn p
        "Failed to execute mytool2 on code-executor - no working endpoints found")))
      = true :=
  ⟨rfl, rfl, rfl⟩

/-- C3 (amended): when a resolved tool's backend fails on every candidate
endpoint, the handler returns HTTP 500 after attempting all four generic
paths and incrementing the error counter once; the error body is the fixed
"no working endpoints found" message naming the tool and the backend — the
attempted paths themselves are only logged, not returned. -/
theorem endpoints_exhausted_500 (refreshW : World) (invW : InvokeWorld)
    (reg : RegMap) (tool_name : String) (parameters : Option (List (String × Json)))
    (sname : String)
    (hns : tool_name ≠ "get_current_time")
    (hres : regLookup (effectiveReg refreshW reg tool_name) tool_name = some sname)
    (hfail : ∀ e ∈ invokeEndpoints ((regLookup SERVICES sname).getD "") tool_name,
      isAuthoritative (invW.postAt e (Json.obj (parameters.getD []))) = false) :
    (execute_tool refreshW invW reg tool_name parameters).outcome =
      .httpError 500 (exhaustedDetail tool_name sname) ∧
    (execute_tool refreshW invW reg tool_name parameters).postAttempts =
      invokeEndpoints ((regLookup SERVICES sname).getD "") tool_name ∧
    (execute_tool refreshW invW reg tool_name parameters).errInc = 1 := by
  rw [execute_tool_resolved_generic refreshW invW reg tool_name parameters sname hres hns]
  unfold runGenericLoop
  rw [tryEndpoints_eq_of_noAuth invW (Json.obj (parameters.getD []))
    (invokeEndpoints ((regLookup SERVICES sname).getD "") tool_name) hfail]
  simp

/-- C3 (amended) witness: every candidate raises; the handler returns 500
with the fixed message and has attempted all four generic paths. -/
theorem endpoints_exhausted_500_witness :
    (execute_tool wAllDown invAllExn regTool3 "tool3" none).outcome =
      .httpError 500 (exhaustedDetail "tool3" "time-client") ∧
    (execute_tool wAllDown invAllExn regTool3 "tool3" none).postAttempts =
      invokeEndpoints "http://time-client:8003" "tool3" := by
  have h := endpoints_exhausted_500 wAllDown invAllExn regTool3 "tool3" none
    "time-client" (by decide) rfl (fun e he => rfl)
  refine ⟨h.1, ?_⟩
  rw [h.2.1]
  rfl

/-- C6: for `get_current_time` the hardcoded GET `/current-time` convention
on the owning backend is used first; on a 200 response the surrounding quote
characters are stripped from the raw text and the
success/output envelope is returned, with no generic POST shape attempted. -/
theorem get_current_time_get_convention (refreshW : World) (invW : InvokeWorld)
    (reg : RegMap) (parameters : Option (List (String × Json))) (sname text : String)
    (hres : regLookup (effectiveReg refreshW reg "get_current_time")
        "get_current_time" = some sname)
    (hget : invW.getAt (((regLookup SERVICES sname).getD "") ++ "/current-time") =
      .resp 200 text) :
    (execute_tool refreshW invW reg "get_current_time" parameters).outcome =
      .ok (.obj [("success", .bool true), ("output", .str (pyStrip '"' text))]) ∧
    (execute_tool refreshW invW reg "get_current_time" parameters).getAttempts =
      [((regLookup SERVICES sname).getD "") ++ "/current-time"] ∧
    (execute_tool refreshW invW reg "get_current_time" parameters).postAttempts = [] ∧
    (execute_tool refreshW invW reg "get_current_time" parameters).succInc = 1 := by
  rw [execute_tool_gct refreshW invW reg parameters sname text hres hget]
  exact ⟨rfl, rfl, rfl, rfl⟩

/-- C6 witness: the time backend answers the GET with the quoted string; the
handler returns the unquoted envelope and attempts no POST endpoint. -/
theorem get_current_time_get_convention_witness :
    (execute_tool wAllDown invTime regTime "get_current_time" none).outcome =
      .ok (.obj [("success", .bool true),
        ("output", .str "2024-01-01T00:00:00+00:00 UTC")]) ∧
    (execute_tool wAllDown invTime regTime "get_current_time" none).postAttempts =
      [] := by
  have h := get_current_time_get_convention wAllDown invTime regTime none
    "time-client" "\"2024-01-01T00:00:00+00:00 UTC\"" rfl rfl
  exact ⟨by rw [h.1]; rfl, h.2.2.1⟩

/-- C9 counterexample: a single invocation whose first candidate answers 200
with an unparseable body and then exhausts the remaining candidates ends in
the 500 outcome yet increments BOTH the success and the error counter —
contradicting "increments exactly one of the two per-tool outcome counters"
(and N=1, M=0 leaves the success counter at 1, not 0). -/
theorem counters_double_increment_counterexample :
    (execute_tool wAllDown invBadjson regBadjson "badjson" none).succInc = 1 ∧
    (execute_tool wAllDown invBadjson regBadjson "badjson" none).errInc = 1 ∧
    (execute_tool wAllDown invBadjson regBadjson "badjson" none).outcome =
      .httpError 500 (exhaustedDetail "badjson" "code-executor") :=
  ⟨rfl, rfl, rfl⟩

/-- C9 (amended): provided no backend answers a 200 response with an
unparseable body, every invocation of a resolvable tool increments exactly
one of the two per-tool counters — the success counter exactly on success —
so N invocations with M successes leave the success counter at M and the
error counter at N−M. -/
theorem counters_count_outcomes (tool_name : String) (invs : List Invocation)
    (hres : ∀ i ∈ invs, ∃ sname,
      regLookup (effectiveReg i.refreshW i.reg tool_name) tool_name = some sname)
    (hparse : ∀ i ∈ invs, ∀ e b, i.invW.postAt e b ≠ .resp 200 none) :
    (invs.map (fun i => (runInv tool_name i).succInc)).sum =
      (invs.filter (fun i => (runInv tool_name i).outcome.isSuccess)).length ∧
    (invs.map (fun i => (runInv tool_name i).errInc)).sum =
      invs.length -
        (invs.filter (fun i => (runInv tool_name i).outcome.isSuccess)).length := by
  induction invs with
  | nil => simp
  | cons i rest ih =>
    obtain ⟨sname, hsi⟩ := hres i (List.mem_cons_self _ _)
    have hpi := hparse i (List.mem_cons_self _ _)
    have hcounts := execute_tool_counts i.refreshW i.invW i.reg tool_name i.params
      sname hsi hpi
    obtain ⟨ih1, ih2⟩ := ih (fun x hx => hres x (List.mem_cons_of_mem _ hx))
      (fun x hx => hparse x (List.mem_cons_of_mem _ hx))
    have hle := List.length_filter_le
      (fun x => (runInv tool_name x).outcome.isSuccess) rest
    simp only [List.map_cons, List.sum_cons, List.filter_cons, List.length_cons]
    by_cases hsucc : (runInv tool_name i).outcome.isSuccess = true
    · have hs2 : (execute_tool i.refreshW i.invW i.reg tool_name
          i.params).outcome.isSuccess = true := hsucc
      have hc1 : (runInv tool_name i).succInc = 1 := by
        show (execute_tool i.refreshW i.invW i.reg tool_name i.params).succInc = 1
        rw [hcounts.1, hs2]
        rfl
      have hc2 : (runInv tool_name i).errInc = 0 := by
        show (execute_tool i.refreshW i.invW i.reg tool_name i.params).errInc = 0
        rw [hcounts.2, hs2]
        rfl
      simp only [hsucc, if_true, hc1, hc2, List.length_cons, ih1, ih2]
      constructor <;> omega
    · have hsuccf : (runInv tool_name i).outcome.isSuccess = false := by
        cases hB : (runInv tool_name i).outcome.isSuccess
        · rfl
        · exact absurd hB hsucc
      have hs2 : (execute_tool i.refreshW i.invW i.reg tool_name
          i.params).outcome.isSuccess = false := hsuccf
      have hc1 : (runInv tool_name i).succInc = 0 := by
        show (execute_tool i.refreshW i.invW i.reg tool_name i.params).succInc = 0
        rw [hcounts.1, hs2]
        rfl
      have hc2 : (runInv tool_name i).errInc = 1 := by
        show (execute_tool i.refreshW i.invW i.reg tool_name i.params).errInc = 1
        rw [hcounts.2, hs2]
        rfl
      simp only [hsuccf, Bool.false_eq_true, if_false, hc1, hc2, ih1, ih2]
      constructor <;> omega

/-- C9 (amended) witness: two invocations of the same tool, one succeeding
and one exhausting its endpoints, leave both the success and the error
counter at 1. -/
theorem counters_count_outcomes_witness :
    (invsDemo.map (fun i => (runInv "mytool" i).succInc)).sum = 1 ∧
    (invsDemo.map (fun i => (runInv "mytool" i).errInc)).sum = 1 := by
  have hres : ∀ i ∈ invsDemo, ∃ sname,
      regLookup (effectiveReg i.refreshW i.reg "mytool") "mytool" = some sname := by
    intro i hi
    rcases List.mem_cons.mp hi with rfl | hi2
    · exact ⟨"code-executor", rfl⟩
    rcases List.mem_cons.mp hi2 with rfl | hi3
    · exact ⟨"code-executor", rfl⟩
    cases hi3
  have hparse : ∀ i ∈ invsDemo, ∀ e b, i.invW.postAt e b ≠ .resp 200 none := by
    intro i hi e b
    rcases List.mem_cons.mp hi with rfl | hi2
    · intro h
      injection h with h1 h2
      cases h2
    rcases List.mem_cons.mp hi2 with rfl | hi3
    · intro h
      injection h with h1 h2
      cases h1
    cases hi3
  have h := counters_count_outcomes "mytool" invsDemo hres hparse
  exact ⟨by rw [h.1]; rfl, by rw [h.2]; rfl⟩

end McpThings
